import Mathlib

/-!
Shallow embedding of the contact app's record-storage layer
(src/contact_model.rs, src/contact_repo.rs) and of its background
archive job (src/contacts_archiver.rs), together with proofs about the
behaviours the specification describes.

Modelling conventions:
* Rust `u32` values are `Nat` with explicit `% 2^32` wherever the source
  can overflow (`AtomicU32::fetch_add` wraps; `(page - 1) * PAGE_SIZE`
  is u32 arithmetic).
* The sqlite table `contact` is a `List Contact` kept in row order; every
  row-returning query (`SELECT` without `ORDER BY`) yields rows in rowid
  order, and since `id` is the `INTEGER PRIMARY KEY` (hence the rowid)
  concrete stores below are always built in increasing-id order so the
  list order is the row order.
* `Box<dyn Error>` (infrastructure failure) is the `Except.error ()`
  layer; the inner `Except ContactErrors Unit` is the business-level
  validation result, exactly as the source's nested
  `Result<Result<(), ContactErrors>, Box<dyn Error>>`.
* The external crate call `validator::validate_email` is an opaque
  boolean oracle, passed as an explicit parameter `evalid`.
-/

namespace ContactApp

/-- ASCII lowercase folding of one character. Models both Rust's
`str::to_lowercase` restricted to ASCII data (the only data the proofs
evaluate it on) and sqlite's ASCII-only case folding used by `LIKE`. -/
def lowerChar (c : Char) : Char :=
  if 'A' ≤ c ∧ c ≤ 'Z' then Char.ofNat (c.toNat + 32) else c

/-- `isPre n h` holds when `n` is an initial segment of `h` (char-wise). -/
def isPre : List Char → List Char → Bool
  | [], _ => true
  | _ :: _, [] => false
  | a :: asr, b :: bs => (a == b) && isPre asr bs

/-- Rust `str::contains` on already-lowercased data: `needle` occurs
contiguously inside `hay`. -/
def hasSub (hay needle : List Char) : Bool :=
  isPre needle hay ||
    (match hay with
     | [] => false
     | _ :: t => hasSub t needle)

/-- `ContactErrors` from src/contact_model.rs: one optional message per
field; `Default` is all-`None`. -/
structure ContactErrors where
  first : Option String
  last : Option String
  phone : Option String
  email : Option String
deriving DecidableEq, Repr

def ContactErrors.default : ContactErrors :=
  { first := none, last := none, phone := none, email := none }

instance instDecEqExcept {ε α : Type} [DecidableEq ε] [DecidableEq α] :
    DecidableEq (Except ε α) := fun x y =>
  match x, y with
  | Except.ok a, Except.ok b =>
    if h : a = b then isTrue (by rw [h])
    else isFalse (fun he => h (by injection he))
  | Except.ok _, Except.error _ => isFalse (fun he => Except.noConfusion he)
  | Except.error _, Except.ok _ => isFalse (fun he => Except.noConfusion he)
  | Except.error a, Except.error b =>
    if h : a = b then isTrue (by rw [h])
    else isFalse (fun he => h (by injection he))

/-- `Contact` from src/contact_model.rs. `ContactId` is a newtype over
`u32`; it is modelled directly as the `Nat` value it wraps. -/
structure Contact where
  id : Nat
  first : String
  last : String
  phone : String
  email : String
deriving DecidableEq, Repr

/-- `Contact::match_text` (src/contact_model.rs:43-52): lowercase the
query, return whether `first` or `last`, lowercased, contains it. -/
def Contact.match_text (c : Contact) (str : String) : Bool :=
  let s := str.data.map lowerChar
  hasSub (c.first.data.map lowerChar) s || hasSub (c.last.data.map lowerChar) s

/-- `Contact::validate` (src/contact_model.rs:54-78). The phone rule is
commented out in the source, so `err_phone` is literally `None`. The
email-syntax oracle `evalid` stands for `validator::validate_email`. -/
def Contact.validate (evalid : String → Bool) (c : Contact) : Except ContactErrors Unit :=
  let errEmail : Option String :=
    if c.email = "" then some "Email Required"
    else if ¬ evalid c.email then some "Email Not Valid"
    else none
  let errPhone : Option String := none
  if errEmail.isSome || errPhone.isSome then
    Except.error { first := none, last := none, phone := errPhone, email := errEmail }
  else
    Except.ok ()

/-- Modelled from the spec: `Contact::validate_email` is called at
src/contact_repo.rs:173 but its definition is absent from src/. The spec
(§4.3, §4.1 `validateEmailUniqueness` clause (a)) requires the email to
be non-empty and syntactically valid; messages follow the email branch of
`Contact::validate`. -/
def Contact.validate_email (evalid : String → Bool) (email : String) : Option String :=
  if email = "" then some "Email Required"
  else if ¬ evalid email then some "Email Not Valid"
  else none

/-- `ERR_EMAIL_UNIQUE` (src/contact_repo.rs:7). -/
def ERR_EMAIL_UNIQUE : String := "Email Must Be Unique"

/-- `PAGE_SIZE` (src/contact_repo.rs:10). -/
def PAGE_SIZE : Nat := 10

/-- 2^32, the modulus of Rust `u32` arithmetic. -/
def U32M : Nat := 4294967296

/-- `ContactRepo` (src/contact_repo.rs:12-16): the sqlite `contact`
table as a row list, plus the `next_id: AtomicU32` counter value. -/
structure ContactRepo where
  db : List Contact
  next_id : Nat
deriving DecidableEq, Repr

/-- `ContactRepo::pop_id` (src/contact_repo.rs:57-62):
`fetch_add(1, Relaxed)` returns the old counter value; the `u32` counter
wraps modulo 2^32. -/
def ContactRepo.pop_id (s : ContactRepo) : Nat × ContactRepo :=
  (s.next_id, { s with next_id := (s.next_id + 1) % U32M })

/-- `ContactRepo::execute_save` (src/contact_repo.rs:187-215): `INSERT`
fails with a constraint violation that sqlx classifies as a unique
violation when the new row collides on the `id` primary key (sqlite code
1555) or on the `UNIQUE` column `email` (code 2067); then the function
returns `false` and leaves the table unchanged. Otherwise the row is
appended and it returns `true`. -/
def ContactRepo.execute_save (db : List Contact) (c : Contact) : List Contact × Bool :=
  if db.any (fun r => r.id == c.id || r.email == c.email) then (db, false)
  else (db ++ [c], true)

/-- `ContactRepo::save` (src/contact_repo.rs:113-129): validate, then
insert; a unique violation (`execute_save` returning `false`) is mapped
to the business error `{ email: ERR_EMAIL_UNIQUE }`. The outer layer is
the infrastructure `Box<dyn Error>`, never produced on this path in the
model (non-constraint database failures are outside the embedding). -/
def ContactRepo.save (evalid : String → Bool) (s : ContactRepo) (c : Contact) :
    Except Unit (Except ContactErrors Unit × ContactRepo) :=
  match Contact.validate evalid c with
  | Except.error errors => Except.ok (Except.error errors, s)
  | Except.ok _ =>
    match ContactRepo.execute_save s.db c with
    | (_, false) =>
        Except.ok
          (Except.error { ContactErrors.default with email := some ERR_EMAIL_UNIQUE }, s)
    | (db, true) => Except.ok (Except.ok (), { s with db := db })

/-- `ContactRepo::find_by_email` (src/contact_repo.rs:140-147):
`fetch_optional` yields the first matching row in row order. -/
def ContactRepo.find_by_email (db : List Contact) (email : String) : Option Contact :=
  db.find? (fun r => r.email == email)

/-- `ContactRepo::validate_email` (src/contact_repo.rs:168-185). -/
def ContactRepo.validate_email (evalid : String → Bool) (db : List Contact)
    (contact_id : Option Nat) (email : String) : Option String :=
  match Contact.validate_email evalid email with
  | some err => some err
  | none =>
    match ContactRepo.find_by_email db email with
    | none => none
    | some cw =>
      match contact_id with
      | some cid => if cid == cw.id then none else some ERR_EMAIL_UNIQUE
      | none => some ERR_EMAIL_UNIQUE

/-- `ContactRepo::execute_update` (src/contact_repo.rs:217-237):
`UPDATE ... WHERE id = ?` overwrites the non-id fields of the row with
the given id. If a row is actually updated and its new `email` collides
with a different row, sqlite raises the `UNIQUE` violation, which this
function propagates with `?` as an infrastructure error (there is no
unique-violation handling here, unlike `execute_save`). Updating zero
rows succeeds. The model assumes pairwise-distinct ids (the primary-key
invariant every reachable table satisfies). -/
def ContactRepo.execute_update (db : List Contact) (c : Contact) :
    Except Unit (List Contact) :=
  if db.any (fun r => r.id == c.id) &&
      db.any (fun r => (r.id != c.id) && (r.email == c.email)) then
    Except.error ()
  else
    Except.ok (db.map fun r =>
      if r.id == c.id then
        { r with first := c.first, last := c.last, phone := c.phone, email := c.email }
      else r)

/-- `ContactRepo::update` (src/contact_repo.rs:149-160): validate, then
`execute_update`, whose infrastructure error is propagated by `?`. -/
def ContactRepo.update (evalid : String → Bool) (s : ContactRepo) (c : Contact) :
    Except Unit (Except ContactErrors Unit × ContactRepo) :=
  match Contact.validate evalid c with
  | Except.error errors => Except.ok (Except.error errors, s)
  | Except.ok _ =>
    match ContactRepo.execute_update s.db c with
    | Except.error _ => Except.error ()
    | Except.ok db => Except.ok (Except.ok (), { s with db := db })

/-- `ContactRepo::execute_delete` (src/contact_repo.rs:239-249):
`DELETE FROM contact WHERE id = ?`. -/
def ContactRepo.execute_delete (db : List Contact) (contact_id : Nat) : List Contact :=
  db.filter (fun r => r.id != contact_id)

/-- `ContactRepo::delete` (src/contact_repo.rs:162-166). -/
def ContactRepo.delete (s : ContactRepo) (contact_id : Nat) : ContactRepo :=
  { s with db := ContactRepo.execute_delete s.db contact_id }

/-- `LIMIT PAGE_SIZE OFFSET (page - 1) * PAGE_SIZE` with the shared
`page.max(1)` clamp (src/contact_repo.rs:80,87,94,107). The offset
multiplication is Rust `u32` arithmetic: in release mode it wraps modulo
2^32 (in debug mode it panics, which equally fails to return the empty
page); the wrap is the behaviour embedded here. -/
def paginate (page : Nat) (rows : List Contact) : List Contact :=
  let page := max page 1
  let offset := ((page - 1) * PAGE_SIZE) % U32M
  (rows.drop offset).take PAGE_SIZE

/-- `ContactRepo::all_by_page` (src/contact_repo.rs:79-91):
`SELECT * FROM contact LIMIT ? OFFSET ?`. -/
def ContactRepo.all_by_page (db : List Contact) (page : Nat) : List Contact :=
  paginate page db

/-- `ContactRepo::all` (src/contact_repo.rs:72-77): `SELECT * FROM contact`. -/
def ContactRepo.all (db : List Contact) : List Contact := db

/-- Sqlite `LIKE` pattern matching: `%` matches any (possibly empty)
substring, `_` matches exactly one character, and ordinary characters
compare after ASCII case folding (sqlite's `LIKE` is case-insensitive
for ASCII only). -/
def likeM : List Char → List Char → Bool
  | [], s => s.isEmpty
  | '%' :: ps, s => (List.tails s).any (fun t => likeM ps t)
  | '_' :: ps, s =>
    match s with
    | [] => false
    | _ :: t => likeM ps t
  | q :: ps, s =>
    match s with
    | [] => false
    | c :: t => (lowerChar q == lowerChar c) && likeM ps t

/-- The row predicate of `ContactRepo::search`'s `WHERE` clause
(src/contact_repo.rs:98-105): `first LIKE '%' || q || '%' OR last LIKE
'%' || q || '%'`, with `q` bound raw, so `%`/`_` inside `q` act as
wildcards. -/
def likeRow (q : String) (r : Contact) : Bool :=
  likeM ('%' :: (q.data ++ ['%'])) r.first.data ||
    likeM ('%' :: (q.data ++ ['%'])) r.last.data

/-- `ContactRepo::search` (src/contact_repo.rs:93-111): the `WHERE`
filter runs before `LIMIT`/`OFFSET`. -/
def ContactRepo.search (db : List Contact) (q : String) (page : Nat) : List Contact :=
  paginate page (db.filter (likeRow q))

/-- `ContactRepo::build` (src/contact_repo.rs:18-38): empty table,
counter 0. -/
def ContactRepo.build : ContactRepo := { db := [], next_id := 0 }

/-- `ContactRepo::build_with_fake_data` (src/contact_repo.rs:39-55):
insert `n` rows `Contact::new_fake(ContactId::new(i))` for `i < n` in
one transaction, then `next_id.store(n)`. The randomized fakeit fields
are the parameter `fake` (its `id` field is overridden by the loop id,
as `new_fake` does); `execute_save`'s boolean result is discarded, so a
colliding fake row is silently skipped, exactly as in the source. -/
def ContactRepo.build_with_fake_data (fake : Nat → Contact) (n : Nat) : ContactRepo :=
  { db := (List.range n).foldl
      (fun db i => (ContactRepo.execute_save db { fake i with id := i }).1) [],
    next_id := n }

/-- One repository call, for stating lifetime properties of the id
sequence: `pop_id`, `save` (create) or `delete`. -/
inductive RepoOp where
  | pop : RepoOp
  | create (c : Contact) : RepoOp
  | del (id : Nat) : RepoOp
deriving DecidableEq, Repr

/-- Run a sequence of repository calls, collecting the ids returned by
the `pop_id` calls in order. -/
def runOps (evalid : String → Bool) : List RepoOp → ContactRepo → ContactRepo × List Nat
  | [], s => (s, [])
  | RepoOp.pop :: ops, s =>
    let p := s.pop_id
    let rest := runOps evalid ops p.2
    (rest.1, p.1 :: rest.2)
  | RepoOp.create c :: ops, s =>
    let s' :=
      match ContactRepo.save evalid s c with
      | Except.ok (_, t) => t
      | Except.error _ => s
    runOps evalid ops s'
  | RepoOp.del i :: ops, s => runOps evalid ops (s.delete i)

/-- Number of `pop_id` calls in a call sequence. -/
def popCount : List RepoOp → Nat
  | [] => 0
  | RepoOp.pop :: ops => popCount ops + 1
  | _ :: ops => popCount ops

/-- `k` consecutive `pop_id` calls. -/
def popN : Nat → ContactRepo → ContactRepo
  | 0, s => s
  | k + 1, s => popN k (s.pop_id).2

/-! ## The archiver (src/contacts_archiver.rs) -/

/-- `Status` (src/contacts_archiver.rs:10-16). -/
inductive Status where
  | Waiting
  | Running
  | Complete
deriving DecidableEq, Repr

/-- The three independently atomic fields of `Archiver`
(src/contacts_archiver.rs:18-24): `status: AtomicStatus`,
`progress_percentage: AtomicU8`, `json_data: ArcSwapOption<String>`.
The serialized artifact string is modelled as the snapshot of the
contact list it serializes (`serde_json::to_string` as an injection). -/
structure Archiver where
  status : Status
  progress_percentage : Nat
  json_data : Option (List Contact)
deriving DecidableEq, Repr

/-- The archiver together with its environment: the repository read path
(`contacts`, read once by the task via `ContactRepo::all`), the program
counters of the in-flight spawned tasks (`task`, in spawn order), and a
ghost counter of how many `tokio::spawn` calls have happened
(`spawned`, instrumentation for counting runs). -/
structure ArchSys where
  contacts : List Contact
  arch : Archiver
  task : List Nat
  spawned : Nat
deriving DecidableEq, Repr

/-- `Archiver::run` (src/contacts_archiver.rs:50-87), its synchronous
part: `status.swap(Running)`; if the old status was not `Waiting`,
re-store `Complete` when it was `Complete` and return without spawning;
otherwise store `progress_percentage = 0` and spawn the background task
at its first instruction (pc 0). -/
def ArchSys.run (s : ArchSys) : ArchSys :=
  let old := s.arch.status
  let s1 := { s with arch := { s.arch with status := Status.Running } }
  if old ≠ Status.Waiting then
    if old = Status.Complete then
      { s1 with arch := { s1.arch with status := Status.Complete } }
    else s1
  else
    { s1 with
      arch := { s1.arch with progress_percentage := 0 },
      task := s1.task ++ [0],
      spawned := s1.spawned + 1 }

/-- One atomic instruction of the spawned task
(src/contacts_archiver.rs:65-86), by program counter:
* `pc = 2*i` for `i < 10` — the loop's checkpoint `if status() != Running
  { return }` (the sleep before it is invisible to the state);
* `pc = 2*i + 1` — the store `progress_percentage = (i+1)*10`;
* `pc = 20` — the final checkpoint after the last sleep;
* `pc = 21` — `json_data.store(Some(serialize(contacts.all())))`;
* `pc = 22` — `status.store(Complete)`, then the task ends.
Returns the new archiver state and the next pc (`none` = task finished
or aborted). -/
def taskMicro (db : List Contact) (a : Archiver) (pc : Nat) : Archiver × Option Nat :=
  if pc < 20 then
    if pc % 2 = 0 then
      if a.status = Status.Running then (a, some (pc + 1)) else (a, none)
    else
      ({ a with progress_percentage := (pc / 2 + 1) * 10 }, some (pc + 1))
  else if pc = 20 then
    if a.status = Status.Running then (a, some 21) else (a, none)
  else if pc = 21 then
    ({ a with json_data := some db }, some 22)
  else
    ({ a with status := Status.Complete }, none)

/-- Advance the `i`-th in-flight task by one instruction. -/
def ArchSys.stepTask (s : ArchSys) (i : Nat) : ArchSys :=
  match s.task.get? i with
  | none => s
  | some pc =>
    let st := taskMicro s.contacts s.arch pc
    match st.2 with
    | some pc' => { s with arch := st.1, task := s.task.set i pc' }
    | none => { s with arch := st.1, task := s.task.eraseIdx i }

/-- `Archiver::reset` (src/contacts_archiver.rs:89-92):
`status.store(Waiting)` and nothing else. -/
def ArchSys.reset (s : ArchSys) : ArchSys :=
  { s with arch := { s.arch with status := Status.Waiting } }

/-- Run the front in-flight task to completion (up to `fuel`
instructions), with no interleaved `run`/`reset` calls. -/
def drain : Nat → ArchSys → ArchSys
  | 0, s => s
  | fuel + 1, s =>
    match s.task with
    | [] => s
    | _ :: _ => drain fuel (s.stepTask 0)

/-! ## Concrete fixtures used by witnesses and counterexamples -/

/-- An email-syntax oracle accepting everything (the concrete emails the
fixtures use are all syntactically valid addresses). -/
def evalidAny : String → Bool := fun _ => true

def contactA0 : Contact :=
  { id := 0, first := "", last := "", phone := "", email := "a@x.com" }

def contactB1 : Contact :=
  { id := 1, first := "", last := "", phone := "", email := "b@x.com" }

/-- A store holding one record with email `a@x.com`. -/
def repoA : ContactRepo := { db := [contactA0], next_id := 1 }

/-- A store holding two records with emails `a@x.com` and `b@x.com`. -/
def repoAB : ContactRepo := { db := [contactA0, contactB1], next_id := 2 }

/-- A validated candidate with a fresh id but the already-taken email
`a@x.com`. -/
def contactDupEmail : Contact :=
  { id := 1, first := "", last := "", phone := "", email := "a@x.com" }

def cJohn : Contact :=
  { id := 0, first := "John", last := "Doe", phone := "", email := "j@x.com" }

/-- Five records with ids `0..4`, as a store would look after five
creates. -/
def dbFive : List Contact :=
  [ { id := 0, first := "A0", last := "B0", phone := "", email := "a0@x.com" },
    { id := 1, first := "A1", last := "B1", phone := "", email := "a1@x.com" },
    { id := 2, first := "A2", last := "B2", phone := "", email := "a2@x.com" },
    { id := 3, first := "A3", last := "B3", phone := "", email := "a3@x.com" },
    { id := 4, first := "A4", last := "B4", phone := "", email := "a4@x.com" } ]

/-- An idle archiver over an empty store. -/
def archW : ArchSys :=
  { contacts := [],
    arch := { status := Status.Waiting, progress_percentage := 0, json_data := none },
    task := [], spawned := 0 }

/-! ## Helper lemmas -/

/-- If at most one element of a list satisfies `p`, any two members
satisfying `p` are equal. -/
theorem countP_le_one_unique {α : Type} (l : List α) (p : α → Bool)
    (h : l.countP p ≤ 1) :
    ∀ a ∈ l, ∀ b ∈ l, p a = true → p b = true → a = b := by
  induction l with
  | nil => intro a ha; exact absurd ha (List.not_mem_nil a)
  | cons x xs ih =>
    intro a ha b hb hpa hpb
    rcases List.mem_cons.mp ha with rfl | ha'
    · rcases List.mem_cons.mp hb with rfl | hb'
      · rfl
      · exfalso
        have h1 : 0 < xs.countP p := List.countP_pos_iff.mpr ⟨b, hb', hpb⟩
        rw [List.countP_cons_of_pos _ _ hpa] at h
        omega
    · rcases List.mem_cons.mp hb with rfl | hb'
      · exfalso
        have h1 : 0 < xs.countP p := List.countP_pos_iff.mpr ⟨a, ha', hpa⟩
        rw [List.countP_cons_of_pos _ _ hpb] at h
        omega
      · refine ih ?_ a ha' b hb' hpa hpb
        rw [List.countP_cons] at h
        omega

/-! ## C1 — duplicate-email create is a business error, store unchanged -/

/-- C1. If the store contains a record with email `c.email` (exactly one,
as the persisted `UNIQUE` constraint guarantees: at most one by the
invariant `hinv`, at least one by `hmem`), then `save` of a validated
contact `c` returns, inside the infrastructure-`ok` layer, exactly the
structured validation error `{ email: "Email Must Be Unique" }` — the
commit-time unique violation is mapped to the business error — and the
resulting store is the unchanged `s`, which still contains exactly one
record with that email. -/
theorem save_duplicate_email_is_business_error
    (evalid : String → Bool) (s : ContactRepo) (c : Contact)
    (hval : Contact.validate evalid c = Except.ok ())
    (hmem : ∃ r ∈ s.db, r.email = c.email)
    (hinv : s.db.countP (fun r => r.email == c.email) ≤ 1) :
    ContactRepo.save evalid s c =
      Except.ok
        (Except.error { ContactErrors.default with email := some ERR_EMAIL_UNIQUE }, s) ∧
    s.db.countP (fun r => r.email == c.email) = 1 := by
  obtain ⟨r, hr, hre⟩ := hmem
  have hany : s.db.any (fun r => r.id == c.id || r.email == c.email) = true :=
    List.any_eq_true.mpr ⟨r, hr, by simp [hre]⟩
  have hcount : s.db.countP (fun r => r.email == c.email) = 1 := by
    have hpos : 0 < s.db.countP (fun r => r.email == c.email) :=
      List.countP_pos_iff.mpr ⟨r, hr, by simp [hre]⟩
    omega
  refine ⟨?_, hcount⟩
  simp [ContactRepo.save, hval, ContactRepo.execute_save, hany]

/-- C1 witness: a concrete store holding `a@x.com`, and a second create
with the same email. -/
theorem save_duplicate_email_witness :
    ContactRepo.save evalidAny repoA contactDupEmail =
      Except.ok
        (Except.error { ContactErrors.default with email := some ERR_EMAIL_UNIQUE },
          repoA) ∧
    repoA.db.countP (fun r => r.email == contactDupEmail.email) = 1 :=
  save_duplicate_email_is_business_error evalidAny repoA contactDupEmail
    (by decide) ⟨contactA0, by decide, by decide⟩ (by decide)

/-! ## C2 — update with a conflicting email -/

/-- C2 counterexample. The claim says an `update` whose email collides
with a different record returns the structured `Email Must Be Unique`
validation error exactly as `save` does. In the code `execute_update`
has no unique-violation handling: the sqlite `UNIQUE` failure is
propagated by `?` as an infrastructure error. Concretely, updating
record 1 of `{0 ↦ a@x.com, 1 ↦ b@x.com}` to email `a@x.com` yields the
infrastructure `Except.error ()`, not the validation error the claim
requires. -/
theorem update_conflict_counterexample :
    ContactRepo.update evalidAny repoAB contactDupEmail = Except.error () ∧
    ContactRepo.update evalidAny repoAB contactDupEmail ≠
      Except.ok
        (Except.error { ContactErrors.default with email := some ERR_EMAIL_UNIQUE },
          repoAB) := by
  constructor
  · decide
  · decide

/-- C2 (amended). For a validated candidate `c` whose id belongs to a
stored record: if some other stored record owns `c.email`, `update`
surfaces the persistence layer's uniqueness violation as an
infrastructure error (`Except.error ()`), not as a structured validation
error; if instead `c.email` is owned only by `c`'s own record (in
particular when `c` keeps its current email), `update` succeeds with no
uniqueness conflict. -/
theorem update_conflict_is_infra_error
    (evalid : String → Bool) (s : ContactRepo) (c : Contact)
    (hval : Contact.validate evalid c = Except.ok ()) :
    ((∃ r ∈ s.db, r.id = c.id) →
      (∃ r ∈ s.db, r.id ≠ c.id ∧ r.email = c.email) →
      ContactRepo.update evalid s c = Except.error ()) ∧
    ((∃ r ∈ s.db, r.id = c.id ∧ r.email = c.email) →
      (∀ r ∈ s.db, r.email = c.email → r.id = c.id) →
      ∃ t : ContactRepo,
        ContactRepo.update evalid s c = Except.ok (Except.ok (), t)) := by
  constructor
  · rintro ⟨r0, hr0, hid0⟩ ⟨r1, hr1, hne1, hem1⟩
    have h1 : s.db.any (fun r => r.id == c.id) = true :=
      List.any_eq_true.mpr ⟨r0, hr0, by simp [hid0]⟩
    have h2 : s.db.any (fun r => (r.id != c.id) && (r.email == c.email)) = true :=
      List.any_eq_true.mpr ⟨r1, hr1, by simp [hne1, hem1]⟩
    simp [ContactRepo.update, hval, ContactRepo.execute_update, h1, h2]
  · rintro ⟨r0, hr0, hid0, hem0⟩ hown
    have h2 : s.db.any (fun r => (r.id != c.id) && (r.email == c.email)) = false := by
      rw [List.any_eq_false]
      intro r hr
      by_cases he : r.email = c.email
      · have := hown r hr he
        simp [this]
      · simp [he]
    refine ⟨{ s with db := s.db.map fun r =>
      if r.id == c.id then
        { r with first := c.first, last := c.last, phone := c.phone, email := c.email }
      else r }, ?_⟩
    simp [ContactRepo.update, hval, ContactRepo.execute_update, h2]

/-- C2 witness: the conflicting update on the two-record store hits the
infrastructure error; updating record 0's non-email fields while keeping
its own email `a@x.com` succeeds. -/
theorem update_conflict_witness :
    ContactRepo.update evalidAny repoAB contactDupEmail = Except.error () ∧
    (∃ t : ContactRepo,
      ContactRepo.update evalidAny repoA
        { contactA0 with first := "X" } = Except.ok (Except.ok (), t)) := by
  have ha :=
    update_conflict_is_infra_error evalidAny repoAB contactDupEmail (by decide)
  have hb :=
    update_conflict_is_infra_error evalidAny repoA
      { contactA0 with first := "X" } (by decide)
  exact ⟨ha.1 ⟨contactB1, by decide, by decide⟩ ⟨contactA0, by decide, by decide⟩,
    hb.2 ⟨contactA0, by decide, by decide⟩ (by decide)⟩

/-! ## C10 — update of a missing id succeeds and changes nothing -/

/-- C10. For a validated contact whose id matches no stored record,
`update` returns success (`Except.ok (Except.ok (), s)` — neither a
validation error nor any not-found signal) and the store is completely
unchanged: `UPDATE ... WHERE id = ?` touches zero rows and sqlx raises
no error for that. -/
theorem update_missing_id_no_op
    (evalid : String → Bool) (s : ContactRepo) (c : Contact)
    (hval : Contact.validate evalid c = Except.ok ())
    (hid : ∀ r ∈ s.db, r.id ≠ c.id) :
    ContactRepo.update evalid s c = Except.ok (Except.ok (), s) := by
  have h1 : s.db.any (fun r => r.id == c.id) = false := by
    rw [List.any_eq_false]
    intro r hr
    simp [hid r hr]
  have h2 : (s.db.map fun r =>
      if r.id == c.id then
        { r with first := c.first, last := c.last, phone := c.phone, email := c.email }
      else r) = s.db := by
    conv_rhs => rw [← List.map_id s.db]
    refine List.map_congr_left ?_
    intro r hr
    simp [hid r hr]
  simp only [ContactRepo.update, hval, ContactRepo.execute_update, h1, Bool.false_and,
    Bool.false_eq_true, if_false]
  rw [h2]

/-- C10 witness: updating a contact with fresh id 7 against the
one-record store succeeds and leaves the store as it was. -/
theorem update_missing_id_witness :
    ContactRepo.update evalidAny repoA
      { id := 7, first := "N", last := "", phone := "", email := "n@x.com" } =
      Except.ok (Except.ok (), repoA) :=
  update_missing_id_no_op evalidAny repoA
    { id := 7, first := "N", last := "", phone := "", email := "n@x.com" }
    (by decide) (by decide)

/-! ## C9 — reset writes only the status field -/

/-- C9. `reset` sets `status` to `Waiting` and nothing else: the
progress value, any previously produced artifact (`json_data`), the
in-flight tasks and the spawn count are all untouched, so after a
completed run followed by `reset()` the prior run's snapshot is still
readable from `json_data` while `status` reads `Waiting`. -/
theorem reset_writes_only_status (s : ArchSys) :
    (s.reset).arch.status = Status.Waiting ∧
    (s.reset).arch.progress_percentage = s.arch.progress_percentage ∧
    (s.reset).arch.json_data = s.arch.json_data ∧
    (s.reset).task = s.task ∧
    (s.reset).spawned = s.spawned ∧
    (s.reset).contacts = s.contacts :=
  ⟨rfl, rfl, rfl, rfl, rfl, rfl⟩

/-! ## C6 — the live email-uniqueness validation -/

/-- C6. Under the persisted uniqueness invariant (at most one stored
record owns `e`), `ContactRepo::validate_email` returns no error iff the
email is non-empty, syntactically valid, and every stored owner of `e`
is the candidate record itself; and it returns exactly the uniqueness
error when a valid, non-empty `e` is owned by a record other than the
candidate. -/
theorem validate_email_uniqueness
    (evalid : String → Bool) (db : List Contact) (cid : Option Nat) (e : String)
    (hinv : db.countP (fun r => r.email == e) ≤ 1) :
    (ContactRepo.validate_email evalid db cid e = none ↔
      (e ≠ "" ∧ evalid e = true ∧ ∀ r ∈ db, r.email = e → cid = some r.id)) ∧
    (e ≠ "" → evalid e = true →
      ∀ r ∈ db, r.email = e → cid ≠ some r.id →
        ContactRepo.validate_email evalid db cid e = some ERR_EMAIL_UNIQUE) := by
  by_cases he : e = ""
  · have hres : ContactRepo.validate_email evalid db cid e = some "Email Required" := by
      simp [ContactRepo.validate_email, Contact.validate_email, he]
    constructor
    · rw [hres]; simp [he]
    · intro he2; exact absurd he he2
  · by_cases hev : evalid e = true
    · cases hf : db.find? (fun r => r.email == e) with
      | none =>
        have hres : ContactRepo.validate_email evalid db cid e = none := by
          simp [ContactRepo.validate_email, Contact.validate_email,
            ContactRepo.find_by_email, he, hev, hf]
        have hall : ∀ r ∈ db, ¬ (r.email == e) = true := List.find?_eq_none.mp hf
        constructor
        · rw [hres]
          constructor
          · intro _
            exact ⟨he, hev, fun r hr hre => absurd (by simp [hre]) (hall r hr)⟩
          · intro _; rfl
        · intro _ _ r hr hre _
          exact absurd (by simp [hre]) (hall r hr)
      | some cw =>
        have hcw_mem : cw ∈ db := List.mem_of_find?_eq_some hf
        have hcw_email : cw.email = e := by
          have := List.find?_some hf
          simpa using this
        have huniq : ∀ r ∈ db, r.email = e → r = cw := fun r hr hre =>
          countP_le_one_unique db (fun r => r.email == e) hinv r hr cw hcw_mem
            (by simp [hre]) (by simp [hcw_email])
        cases cid with
        | none =>
          have hres : ContactRepo.validate_email evalid db none e =
              some ERR_EMAIL_UNIQUE := by
            simp [ContactRepo.validate_email, Contact.validate_email,
              ContactRepo.find_by_email, he, hev, hf]
          constructor
          · rw [hres]
            constructor
            · intro h; exact absurd h (by simp)
            · rintro ⟨-, -, hall⟩
              exact absurd (hall cw hcw_mem hcw_email) (by simp)
          · intro _ _ r hr hre hne
            exact hres
        | some cidv =>
          by_cases hc : cidv = cw.id
          · have hres : ContactRepo.validate_email evalid db (some cidv) e = none := by
              simp [ContactRepo.validate_email, Contact.validate_email,
                ContactRepo.find_by_email, he, hev, hf, hc]
            constructor
            · rw [hres]
              constructor
              · intro _
                refine ⟨he, hev, fun r hr hre => ?_⟩
                rw [huniq r hr hre, hc]
              · intro _; rfl
            · intro _ _ r hr hre hne
              exfalso
              exact hne (by rw [huniq r hr hre, hc])
          · have hres : ContactRepo.validate_email evalid db (some cidv) e =
                some ERR_EMAIL_UNIQUE := by
              simp [ContactRepo.validate_email, Contact.validate_email,
                ContactRepo.find_by_email, he, hev, hf, hc]
            constructor
            · rw [hres]
              constructor
              · intro h; exact absurd h (by simp)
              · rintro ⟨-, -, hall⟩
                have h2 := hall cw hcw_mem hcw_email
                exact (hc (by injection h2)).elim
            · intro _ _ r hr hre hne
              exact hres
    · have hres : ContactRepo.validate_email evalid db cid e =
          some "Email Not Valid" := by
        simp [ContactRepo.validate_email, Contact.validate_email, he, hev]
      constructor
      · rw [hres]
        constructor
        · intro h; exact absurd h (by simp)
        · rintro ⟨-, hev2, -⟩; exact (hev hev2).elim
      · intro _ hev2; exact absurd hev2 hev

/-- C6 witness: on the two-record store, validating `a@x.com` for
candidate 1 (whose email is `b@x.com`) yields exactly the uniqueness
error, while for candidate 0 (its owner) it yields no error. -/
theorem validate_email_uniqueness_witness :
    ContactRepo.validate_email evalidAny repoAB.db (some 1) "a@x.com" =
      some ERR_EMAIL_UNIQUE ∧
    ContactRepo.validate_email evalidAny repoAB.db (some 0) "a@x.com" = none := by
  have h1 :=
    validate_email_uniqueness evalidAny repoAB.db (some 1) "a@x.com" (by decide)
  have h2 :=
    validate_email_uniqueness evalidAny repoAB.db (some 0) "a@x.com" (by decide)
  refine ⟨h1.2 (by decide) rfl contactA0 (by decide) (by decide) (by decide), ?_⟩
  exact h2.1.mpr ⟨by decide, rfl, by decide⟩

/-! ## C7 — search semantics -/

/-- A lone `%` pattern matches every string. -/
theorem likeM_pct (s : List Char) : likeM ['%'] s = true := by
  induction s with
  | nil => rfl
  | cons c t ih =>
    show (List.tails (c :: t)).any (fun u => likeM [] u) = true
    rw [List.tails_cons, List.any_cons]
    have h2 : ((List.tails t).any fun u => likeM [] u) = likeM ['%'] t := rfl
    rw [h2, ih]
    simp

/-- A pattern starting with `%` matches any string the rest of the
pattern matches. -/
theorem likeM_pct_of (ps s : List Char) (h : likeM ps s = true) :
    likeM ('%' :: ps) s = true := by
  cases s with
  | nil =>
    show (List.tails ([] : List Char)).any (fun u => likeM ps u) = true
    simp [h]
  | cons c t =>
    show (List.tails (c :: t)).any (fun u => likeM ps u) = true
    rw [List.tails_cons, List.any_cons, h]
    simp

/-- The empty query's row pattern `%%` matches every string. -/
theorem likeM_pct_pct (s : List Char) : likeM ['%', '%'] s = true :=
  likeM_pct_of ['%'] s (likeM_pct s)

/-- The empty query matches every row. -/
theorem likeRow_empty (r : Contact) : likeRow "" r = true := by
  simp [likeRow, likeM_pct_pct]

/-- C7 counterexample. The claim says `search(q, page)` filters with the
same predicate as `Contact::match_text` (case-insensitive substring).
The SQL `WHERE first LIKE '%' || q || '%' ...` treats `%` and `_` inside
`q` as wildcards, while `match_text` looks for them literally: for
`q = "%"` the query matches the record `John Doe` although `match_text`
rejects it, so `search` and the `match_text` filter disagree. -/
theorem search_match_text_counterexample :
    ContactRepo.search [cJohn] "%" 1 = [cJohn] ∧
    List.filter (fun c => c.match_text "%") [cJohn] = [] ∧
    ContactRepo.search [cJohn] "%" 1 ≠
      paginate 1 (List.filter (fun c => c.match_text "%") [cJohn]) := by
  refine ⟨by decide, by decide, by decide⟩

/-- C7 (amended). `search(q, page)` returns exactly the stored records,
restricted to page `page`, that satisfy the SQL `LIKE` row predicate
`first LIKE '%'||q||'%' OR last LIKE '%'||q||'%'` (ASCII-case-insensitive,
with `%`/`_` in `q` acting as wildcards — which coincides with a plain
case-insensitive substring test only for wildcard-free queries); every
returned record is a stored record satisfying that predicate, and
`search("", page)` returns the unfiltered page, i.e. exactly `list(page)`
(`all_by_page`). -/
theorem search_returns_like_matches (db : List Contact) (q : String) (page : Nat) :
    ContactRepo.search db q page = paginate page (db.filter (likeRow q)) ∧
    (∀ r ∈ ContactRepo.search db q page, r ∈ db ∧ likeRow q r = true) ∧
    ContactRepo.search db "" page = ContactRepo.all_by_page db page := by
  refine ⟨rfl, ?_, ?_⟩
  · intro r hr
    have h1 : r ∈ db.filter (likeRow q) := by
      have h2 := List.mem_of_mem_take hr
      exact List.mem_of_mem_drop h2
    have h3 := List.mem_filter.mp h1
    exact ⟨h3.1, h3.2⟩
  · show paginate page (db.filter (likeRow "")) = paginate page db
    rw [List.filter_eq_self.mpr (fun r _ => likeRow_empty r)]

/-- C7 witness: the query `oh` (no wildcards) returns `John Doe` on
page 1, and that record is a stored `LIKE` match; the empty query
returns the unfiltered page. -/
theorem search_returns_like_matches_witness :
    (cJohn ∈ [cJohn] ∧ likeRow "oh" cJohn = true) ∧
    ContactRepo.search [cJohn] "" 1 = ContactRepo.all_by_page [cJohn] 1 := by
  have h := search_returns_like_matches [cJohn] "oh" 1
  exact ⟨h.2.1 cJohn (by decide), (search_returns_like_matches [cJohn] "" 1).2.2⟩

/-! ## C8 — pagination bounds -/

/-- C8 counterexample. The claim says every page beyond the available
data yields the empty sequence. The offset `(page - 1) * PAGE_SIZE` is
`u32` arithmetic: for `page = 429496731` it computes
`4294967300 mod 2^32 = 4`, so on a five-record store this far-out-of-range
page returns the fifth record instead of the empty sequence (a
debug-mode build would panic on the same multiplication — also not an
empty result). -/
theorem all_by_page_overflow_counterexample :
    ContactRepo.all_by_page dbFive 429496731 =
      [{ id := 4, first := "A4", last := "B4", phone := "", email := "a4@x.com" }] ∧
    dbFive.length ≤ (429496731 - 1) * PAGE_SIZE ∧
    ContactRepo.all_by_page dbFive 429496731 ≠ [] := by
  refine ⟨by decide, by decide, by decide⟩

/-- C8 (amended). `list(page)` always returns at most `PAGE_SIZE = 10`
records; `page < 1` behaves exactly like `page = 1`; and a page lying
beyond the available data returns the empty sequence (never an error)
whenever its offset `(page - 1) * 10` does not overflow `u32` — for
astronomically large pages the wrapped offset can fall back inside the
data, as the counterexample shows. -/
theorem all_by_page_bounds (db : List Contact) (page : Nat) :
    (ContactRepo.all_by_page db page).length ≤ PAGE_SIZE ∧
    (page < 1 → ContactRepo.all_by_page db page = ContactRepo.all_by_page db 1) ∧
    (db.length ≤ (max page 1 - 1) * PAGE_SIZE →
      (max page 1 - 1) * PAGE_SIZE < U32M →
      ContactRepo.all_by_page db page = []) := by
  refine ⟨?_, ?_, ?_⟩
  · exact List.length_take_le _ _
  · intro hp
    have h0 : page = 0 := by omega
    rw [h0]
    rfl
  · intro hlen hlt
    show ((db.drop (((max page 1 - 1) * PAGE_SIZE) % U32M)).take PAGE_SIZE) = []
    rw [Nat.mod_eq_of_lt hlt]
    rw [List.drop_eq_nil_of_le hlen]
    rfl

/-- C8 witness: page 0 equals page 1, and page 2 of the five-record
store (beyond the data, no overflow) is empty. -/
theorem all_by_page_bounds_witness :
    ContactRepo.all_by_page dbFive 0 = ContactRepo.all_by_page dbFive 1 ∧
    ContactRepo.all_by_page dbFive 2 = [] := by
  have h0 := all_by_page_bounds dbFive 0
  have h2 := all_by_page_bounds dbFive 2
  exact ⟨h0.2.1 (by decide), h2.2.2 (by decide) (by decide)⟩

/-! ## C4 — start spawns only on Waiting -> Running -/

/-- C4. `run` spawns a background task only on the `Waiting → Running`
transition, at which point it also resets the progress to 0; called
while `Running` it is a complete no-op; called while `Complete` it
leaves the status `Complete` and spawns nothing. Consequently two
back-to-back `run` calls from `Waiting` spawn exactly one task, and
running that task to completion ends with `status = Complete` and
exactly one artifact — the snapshot of the store. -/
theorem run_spawns_once (s : ArchSys) :
    (s.arch.status = Status.Waiting →
      (s.run).arch.status = Status.Running ∧
      (s.run).arch.progress_percentage = 0 ∧
      (s.run).spawned = s.spawned + 1 ∧
      (s.run).task = s.task ++ [0]) ∧
    (s.arch.status = Status.Running → s.run = s) ∧
    (s.arch.status = Status.Complete →
      (s.run).arch.status = Status.Complete ∧
      (s.run).spawned = s.spawned ∧
      (s.run).task = s.task ∧
      (s.run).arch.json_data = s.arch.json_data ∧
      (s.run).arch.progress_percentage = s.arch.progress_percentage) ∧
    (s.arch.status = Status.Waiting → s.task = [] →
      (s.run.run).spawned = s.spawned + 1 ∧
      (drain 23 (s.run.run)).arch.status = Status.Complete ∧
      (drain 23 (s.run.run)).arch.json_data = some s.contacts ∧
      (drain 23 (s.run.run)).spawned = s.spawned + 1 ∧
      (drain 23 (s.run.run)).task = []) := by
  obtain ⟨cts, ⟨st, pr, jd⟩, tk, sp⟩ := s
  refine ⟨?_, ?_, ?_, ?_⟩
  · intro h
    cases st with
    | Waiting => exact ⟨rfl, rfl, rfl, rfl⟩
    | Running => exact absurd h (by simp)
    | Complete => exact absurd h (by simp)
  · intro h
    cases st with
    | Waiting => exact absurd h (by simp)
    | Running => rfl
    | Complete => exact absurd h (by simp)
  · intro h
    cases st with
    | Waiting => exact absurd h (by simp)
    | Running => exact absurd h (by simp)
    | Complete => exact ⟨rfl, rfl, rfl, rfl, rfl⟩
  · intro h htk
    cases st with
    | Waiting =>
      cases htk
      refine ⟨rfl, ?_, ?_, ?_, ?_⟩ <;>
        simp [ArchSys.run, drain, ArchSys.stepTask, taskMicro]
    | Running => exact absurd h (by simp)
    | Complete => exact absurd h (by simp)

/-- C4 witness: from the concrete idle archiver, two back-to-back `run`
calls followed by the task's execution give one spawned run, status
`Complete` and exactly one artifact; `run` while `Running` is a no-op;
`run` while `Complete` stays `Complete`. -/
theorem run_spawns_once_witness :
    (drain 23 (archW.run.run)).arch.status = Status.Complete ∧
    (drain 23 (archW.run.run)).spawned = 1 ∧
    (drain 23 (archW.run.run)).arch.json_data = some [] ∧
    ({ archW with arch := { archW.arch with status := Status.Running } }).run =
      { archW with arch := { archW.arch with status := Status.Running } } ∧
    (({ archW with arch := { archW.arch with status := Status.Complete } }).run).arch.status
      = Status.Complete := by
  have h1 := run_spawns_once archW
  have h2 :=
    run_spawns_once { archW with arch := { archW.arch with status := Status.Running } }
  have h3 :=
    run_spawns_once { archW with arch := { archW.arch with status := Status.Complete } }
  refine ⟨(h1.2.2.2 rfl rfl).2.1, ?_, (h1.2.2.2 rfl rfl).2.2.1,
    h2.2.1 rfl, (h3.2.2.1 rfl).1⟩
  have h4 := (h1.2.2.2 rfl rfl).2.2.2.1
  simpa using h4

/-! ## C5 — reset and the in-flight task -/

/-- C5 counterexample. The claim says that whenever `reset()` fires
while a run is in progress, the task aborts at a stage checkpoint, so
the status ends `Waiting` and no artifact from that run is observable.
But after the task's final checkpoint (pc 20) there is no further status
check: from the idle archiver, `run`, 21 task instructions (reaching
pc 21, artifact store pending), then `reset`, then the remaining
instructions leave `status = Complete` with the aborted run's artifact
stored — not `Waiting`, and the artifact is observable. -/
theorem reset_late_window_counterexample :
    (drain 3 (ArchSys.reset (drain 21 (ArchSys.run archW)))).arch.status =
      Status.Complete ∧
    (drain 3 (ArchSys.reset (drain 21 (ArchSys.run archW)))).arch.json_data =
      some [] ∧
    (drain 21 (ArchSys.run archW)).arch.status = Status.Running ∧
    (drain 21 (ArchSys.run archW)).task = [21] ∧
    (drain 3 (ArchSys.reset (drain 21 (ArchSys.run archW)))).arch.status ≠
      Status.Waiting := by
  refine ⟨by decide, by decide, by decide, by decide, by decide⟩

/-- C5 (amended). If `reset()` fires while the single in-flight task has
not yet passed its final status checkpoint (pc ≤ 20), the task observes
`status ≠ Running` at its next checkpoint (at most one progress store
later) and aborts: afterwards the status is `Waiting`, the artifact slot
is exactly what it was before (nothing from the aborted run), and the
task is gone. If `reset()` fires after the final checkpoint (pc ≥ 21),
the run still completes, as the counterexample shows. -/
theorem reset_aborts_task_before_final_checkpoint
    (s : ArchSys) (pc : Nat) (htask : s.task = [pc]) (hpc : pc ≤ 20) :
    (drain 23 s.reset).arch.status = Status.Waiting ∧
    (drain 23 s.reset).arch.json_data = s.arch.json_data ∧
    (drain 23 s.reset).task = [] ∧
    (drain 23 s.reset).spawned = s.spawned := by
  obtain ⟨cts, ⟨st, pr, jd⟩, tk, sp⟩ := s
  simp only at htask
  subst htask
  interval_cases pc <;> exact ⟨rfl, rfl, rfl, rfl⟩

/-- C5 witness: a mid-run archiver (task at the checkpoint pc 10,
progress 50) hit by `reset` drains to `Waiting` with no artifact. -/
theorem reset_aborts_task_witness :
    (drain 23 (ArchSys.reset
      { contacts := [],
        arch := { status := Status.Running, progress_percentage := 50,
                  json_data := none },
        task := [10], spawned := 1 })).arch.status = Status.Waiting ∧
    (drain 23 (ArchSys.reset
      { contacts := [],
        arch := { status := Status.Running, progress_percentage := 50,
                  json_data := none },
        task := [10], spawned := 1 })).arch.json_data = none := by
  have h := reset_aborts_task_before_final_checkpoint
    { contacts := [],
      arch := { status := Status.Running, progress_percentage := 50,
                json_data := none },
      task := [10], spawned := 1 } 10 rfl (by decide)
  exact ⟨h.1, h.2.1⟩

/-! ## C3 — the id sequence -/

/-- After `k` consecutive `pop_id` calls the counter holds
`(seed + k) mod 2^32`; this is also the value the next call returns. -/
theorem popN_next_id (k : Nat) : ∀ s : ContactRepo, s.next_id < U32M →
    (popN k s).next_id = (s.next_id + k) % U32M := by
  induction k with
  | zero =>
    intro s h
    simpa [popN] using (Nat.mod_eq_of_lt h).symm
  | succ k ih =>
    intro s h
    have h1 : (s.pop_id).2.next_id = (s.next_id + 1) % U32M := rfl
    have h2 : (s.pop_id).2.next_id < U32M := by
      rw [h1]; exact Nat.mod_lt _ (by decide)
    calc (popN (k + 1) s).next_id
        = (popN k (s.pop_id).2).next_id := rfl
      _ = ((s.pop_id).2.next_id + k) % U32M := ih _ h2
      _ = ((s.next_id + 1) % U32M + k) % U32M := by rw [h1]
      _ = (s.next_id + 1 + k) % U32M := Nat.mod_add_mod _ _ _
      _ = (s.next_id + (k + 1)) % U32M := by
          exact congrArg (fun x => x % U32M) (by omega)

/-- C3 counterexample. `next_id` is an `AtomicU32`, and `fetch_add`
wraps: starting from the empty store (counter seeded 0), the call
number 2^32 of `pop_id` returns 0 — the same id that the very first
call returned. So over the process lifetime ids are not strictly
increasing and are eventually reused; they are only unique while fewer
than 2^32 ids have been issued. -/
theorem pop_id_wraps_counterexample :
    (popN 4294967296 ContactRepo.build).next_id =
      (popN 0 ContactRepo.build).next_id ∧
    (popN 0 ContactRepo.build).next_id = 0 := by
  have h := popN_next_id 4294967296 ContactRepo.build (by decide)
  constructor
  · rw [h]; decide
  · rfl

/-- The repository state reached after one `create` step of `runOps`. -/
theorem save_step_next_id (evalid : String → Bool) (s : ContactRepo) (c : Contact) :
    (match ContactRepo.save evalid s c with
     | Except.ok (_, t) => t
     | Except.error _ => s).next_id = s.next_id := by
  unfold ContactRepo.save
  cases Contact.validate evalid c with
  | error e => rfl
  | ok u =>
    unfold ContactRepo.execute_save
    by_cases hb : s.db.any (fun r => r.id == c.id || r.email == c.email)
    · simp [hb]
    · simp [hb]

/-- Along any sequence of `pop_id`/`create`/`delete` calls the ids
returned by the `pop_id` calls are `seed, seed+1, ...` modulo 2^32:
`create` and `delete` never touch the counter, and `pop_id` never reads
the table. -/
theorem runOps_trace (evalid : String → Bool) (ops : List RepoOp) :
    ∀ s : ContactRepo, s.next_id < U32M →
      (runOps evalid ops s).2 =
        (List.range (popCount ops)).map (fun j => (s.next_id + j) % U32M) := by
  induction ops with
  | nil => intro s h; simp [runOps, popCount]
  | cons op ops ih =>
    intro s h
    cases op with
    | pop =>
      have h1 : (s.pop_id).2.next_id = (s.next_id + 1) % U32M := rfl
      have h2 : (s.pop_id).2.next_id < U32M := by
        rw [h1]; exact Nat.mod_lt _ (by decide)
      have h3 : (runOps evalid (RepoOp.pop :: ops) s).2 =
          s.next_id :: (runOps evalid ops (s.pop_id).2).2 := rfl
      rw [h3, ih _ h2]
      have h4 : popCount (RepoOp.pop :: ops) = popCount ops + 1 := rfl
      rw [h4, List.range_succ_eq_map]
      simp only [List.map_cons, List.map_map]
      congr 1
      · rw [Nat.add_zero]
        exact (Nat.mod_eq_of_lt h).symm
      · refine List.map_congr_left ?_
        intro a ha
        show ((s.pop_id).2.next_id + a) % U32M = (s.next_id + (a + 1)) % U32M
        rw [h1, Nat.mod_add_mod]
        exact congrArg (fun x => x % U32M) (by omega)
    | create c =>
      have h1 := save_step_next_id evalid s c
      have h2 : (runOps evalid (RepoOp.create c :: ops) s).2 =
          (runOps evalid ops (match ContactRepo.save evalid s c with
            | Except.ok (_, t) => t
            | Except.error _ => s)).2 := rfl
      rw [h2, ih _ (by rw [h1]; exact h), h1]
      rfl
    | del i =>
      have h1 : (s.delete i).next_id = s.next_id := rfl
      have h2 : (runOps evalid (RepoOp.del i :: ops) s).2 =
          (runOps evalid ops (s.delete i)).2 := rfl
      rw [h2, ih _ (by rw [h1]; exact h), h1]
      rfl

/-- `execute_save` on a row colliding with nothing: the row is appended
and the insert reports success. -/
theorem execute_save_fresh (db : List Contact) (c : Contact)
    (hid : ∀ r ∈ db, r.id ≠ c.id) (hem : ∀ r ∈ db, r.email ≠ c.email) :
    ContactRepo.execute_save db c = (db ++ [c], true) := by
  have hany : db.any (fun r => r.id == c.id || r.email == c.email) = false := by
    rw [List.any_eq_false]
    intro r hr
    simp [hid r hr, hem r hr]
  simp [ContactRepo.execute_save, hany]

/-- The table built by `build_with_fake_data` when the fake rows'
emails are pairwise distinct (ids `0..n-1` are distinct anyway): all
`n` inserts succeed. -/
theorem build_with_fake_data_db (fake : Nat → Contact) (n : Nat)
    (hdist : ∀ a, a < n → ∀ b, b < n → a ≠ b → (fake a).email ≠ (fake b).email) :
    (ContactRepo.build_with_fake_data fake n).db =
      (List.range n).map (fun i => { fake i with id := i }) := by
  induction n with
  | zero => rfl
  | succ n ih =>
    have hdist' : ∀ a, a < n → ∀ b, b < n → a ≠ b → (fake a).email ≠ (fake b).email :=
      fun a ha b hb hne => hdist a (by omega) b (by omega) hne
    show (List.range (n + 1)).foldl
        (fun db i => (ContactRepo.execute_save db { fake i with id := i }).1) [] = _
    rw [List.range_succ, List.foldl_append]
    have hdb : (List.range n).foldl
        (fun db i => (ContactRepo.execute_save db { fake i with id := i }).1) [] =
        (List.range n).map (fun i => { fake i with id := i }) := ih hdist'
    rw [hdb, List.foldl_cons, List.foldl_nil]
    have hid : ∀ r ∈ (List.range n).map (fun i => ({ fake i with id := i } : Contact)),
        r.id ≠ ({ fake n with id := n } : Contact).id := by
      intro r hr
      obtain ⟨a, ha, rfl⟩ := List.mem_map.mp hr
      have han : a < n := List.mem_range.mp ha
      exact (by omega : a ≠ n)
    have hem : ∀ r ∈ (List.range n).map (fun i => ({ fake i with id := i } : Contact)),
        r.email ≠ ({ fake n with id := n } : Contact).email := by
      intro r hr
      obtain ⟨a, ha, rfl⟩ := List.mem_map.mp hr
      have han : a < n := List.mem_range.mp ha
      exact hdist a (by omega) n (by omega) (by omega)
    rw [execute_save_fresh _ _ hid hem]
    simp [List.range_succ]

/-- Fake-row generator for the seeding witness (distinct emails). -/
def fakeW : Nat → Contact := fun i =>
  { id := 0, first := "", last := "", phone := "",
    email := if i = 0 then "f0@x.com" else "f1@x.com" }

/-- Concrete call sequence: pop, create, pop, delete, pop. -/
def opsW : List RepoOp :=
  [RepoOp.pop, RepoOp.create contactA0, RepoOp.pop, RepoOp.del 0, RepoOp.pop]

/-- C3 (amended). The counter is seeded exactly once, at store
initialization, from the number of records present (`n` after seeding
`n` fake records with distinct emails, `0` for the empty store); a
`pop_id` call reads only the counter — its result is unchanged under any
replacement of the stored records, and it leaves the table untouched —
and along every sequence of `pop_id`/`create`/`delete` calls the values
returned by `pop_id` are strictly increasing and pairwise distinct,
including after deletes, as long as the issue count stays below
2^32 − seed; at 2^32 issued ids the u32 counter wraps and values repeat,
as the counterexample shows. -/
theorem pop_id_seeded_and_monotone
    (fake : Nat → Contact) (n : Nat) (evalid : String → Bool)
    (ops : List RepoOp) (s : ContactRepo) (i j : Nat) :
    ((∀ a, a < n → ∀ b, b < n → a ≠ b → (fake a).email ≠ (fake b).email) →
      (ContactRepo.build_with_fake_data fake n).next_id = n ∧
      (ContactRepo.build_with_fake_data fake n).db.length = n) ∧
    (ContactRepo.build.next_id = 0 ∧ ContactRepo.build.db.length = 0) ∧
    (∀ db', (ContactRepo.pop_id { s with db := db' }).1 = (ContactRepo.pop_id s).1) ∧
    ((ContactRepo.pop_id s).2.db = s.db) ∧
    (s.next_id < U32M → i < j → s.next_id + j < U32M →
      ∀ v w, ((runOps evalid ops s).2).get? i = some v →
        ((runOps evalid ops s).2).get? j = some w →
        v < w ∧ v ≠ w) := by
  refine ⟨?_, ⟨rfl, rfl⟩, fun db' => rfl, rfl, ?_⟩
  · intro hdist
    refine ⟨rfl, ?_⟩
    rw [build_with_fake_data_db fake n hdist, List.length_map, List.length_range]
  · intro hM hij hjM v w hv hw
    rw [runOps_trace evalid ops s hM, List.get?_map] at hv hw
    have hvi : v = (s.next_id + i) % U32M := by
      have hlt : i < popCount ops := by
        by_contra hcon
        have hnone : (List.range (popCount ops)).get? i = none := by
          rw [List.get?_eq_none]
          simpa using Nat.le_of_not_lt hcon
        rw [hnone] at hv
        cases hv
      rw [List.get?_range hlt] at hv
      injection hv with hv2
      exact hv2.symm
    have hwj : w = (s.next_id + j) % U32M := by
      have hlt : j < popCount ops := by
        by_contra hcon
        have hnone : (List.range (popCount ops)).get? j = none := by
          rw [List.get?_eq_none]
          simpa using Nat.le_of_not_lt hcon
        rw [hnone] at hw
        cases hw
      rw [List.get?_range hlt] at hw
      injection hw with hw2
      exact hw2.symm
    rw [hvi, hwj, Nat.mod_eq_of_lt (by omega), Nat.mod_eq_of_lt (by omega)]
    omega

/-- C3 witness: seeding two distinct fake rows leaves counter 2 and two
records; along the concrete sequence pop, create, pop, delete, pop from
the empty store the returned ids are 0, 1, 2 — strictly increasing and
distinct across the interleaved create and delete. -/
theorem pop_id_seeded_and_monotone_witness :
    ((runOps evalidAny opsW ContactRepo.build).2).get? 0 = some 0 ∧
    ((runOps evalidAny opsW ContactRepo.build).2).get? 2 = some 2 ∧
    ((0 : Nat) < 2 ∧ (0 : Nat) ≠ 2) ∧
    (ContactRepo.build_with_fake_data fakeW 2).next_id = 2 ∧
    (ContactRepo.build_with_fake_data fakeW 2).db.length = 2 := by
  have h := pop_id_seeded_and_monotone fakeW 2 evalidAny opsW ContactRepo.build 0 2
  have hm := h.2.2.2.2 (by decide) (by decide) (by decide) 0 2 (by decide) (by decide)
  have hs := h.1 (by decide)
  exact ⟨by decide, by decide, hm, hs.1, hs.2⟩

end ContactApp
